import Mathlib

/-!
Verification of the o-agents process-orchestration core.

The definitions below are a shallow embedding of the TypeScript sources:
  * src/src/utils/terminate.ts   (termination planner and executor)
  * src/src/utils/run.ts         (process spawning, exit promise, agent run loop)
  * src/src/agent/resultServer.ts (HTTP result channel)
  * src/src/utils/runtime.ts     (logger / logging contexts)

OS-level effects (process tables, `process.kill`, files, the console) are
represented by explicit environment records and by traces of the actions the
code would perform; promise settlement is represented by explicit outcome
parameters.  JavaScript truthiness of numbers (0 and undefined are falsy) and
of strings (the empty string is falsy) is embedded explicitly wherever the
source relies on it.
-/

namespace OAgents

/-- The host platform (process.platform), restricted to the values the
termination planner distinguishes plus a catch-all. -/
inductive Platform
  | win32
  | darwin
  | linux
  | otherPlatform (s : String)
deriving DecidableEq

/-- The signals used by the termination planner (NodeJS.Signals restricted to
the two values terminate.ts ever constructs plans with). -/
inductive Signal
  | SIGTERM
  | SIGKILL
deriving DecidableEq

/-- TerminationPlan.mode from src/src/types.ts. -/
inductive PlanMode
  | mock
  | real
deriving DecidableEq

/-- TerminationPlan.strategy from src/src/types.ts:
"no-pid" | "windows" | "darwin-tree" | "process-group" | "child-only". -/
inductive Strategy
  | noPid
  | windows
  | darwinTree
  | processGroup
  | childOnly
deriving DecidableEq

/-- TerminationPlan from src/src/types.ts.  Optional fields that the source
omits in a given case are `none`. -/
structure TerminationPlan where
  mode : PlanMode
  platform : Platform
  signal : Signal
  pid : Option Nat
  processGroupId : Option Nat
  strategy : Strategy
  descendants : Option (List Nat)
deriving DecidableEq

/-- The OS process table as observed through `pgrep -P` and `ps -o pgid=`
(terminate.ts shells out to these).  `children p` is the parsed list of child
pids of `p` (already filtered to finite positive numbers, as the source does);
`pgid p` is the process-group id of `p`, `none` when `ps` fails. -/
structure ProcessTable where
  children : Nat → List Nat
  pgid : Nat → Option Nat

/-- listChildPidsMacOS from terminate.ts: children of `parentPid`, filtered to
the root's process group when `rootPgid` is known. -/
def listChildPidsMacOS (tbl : ProcessTable) (parentPid : Nat) (rootPgid : Option Nat) :
    List Nat :=
  let pids := tbl.children parentPid
  match rootPgid with
  | none => pids
  | some g => pids.filter (fun pid => tbl.pgid pid = some g)

/-- The while-loop of collectProcessTreeMacOS.  `toVisit` is the stack with
its head the next pid to pop (the JS array pops from the end; children are
pushed in order, so they are prepended here in reverse).  `fuel` bounds the
iteration count; the JS loop terminates because `visited` only grows over a
finite process table. -/
def collectLoop (tbl : ProcessTable) (rootPid : Nat) (rootPgid : Option Nat) :
    Nat → List Nat → List Nat → List Nat → List Nat
  | 0, _, _, descendants => descendants.reverse
  | _ + 1, [], _, descendants => descendants.reverse
  | fuel + 1, pid :: rest, visited, descendants =>
    if pid = 0 ∨ pid ∈ visited then
      collectLoop tbl rootPid rootPgid fuel rest visited descendants
    else
      let visited' := pid :: visited
      let descendants' := if pid ≠ rootPid then pid :: descendants else descendants
      let newKids :=
        (listChildPidsMacOS tbl pid rootPgid).filter (fun c => c ∉ visited')
      collectLoop tbl rootPid rootPgid fuel (newKids.reverse ++ rest) visited' descendants'

/-- collectProcessTreeMacOS from terminate.ts: walk the process table from
`rootPid`, collecting every reachable descendant (children filtered to the
root's process group when it is known). -/
def collectProcessTreeMacOS (tbl : ProcessTable) (rootPid : Nat) (fuel : Nat) : List Nat :=
  collectLoop tbl rootPid (tbl.pgid rootPid) fuel [rootPid] [] []

/-- buildTerminationPlan from terminate.ts.  `pid`/`processGroupId` model the
JS values with `none` for undefined; JS truthiness makes 0 falsy, which the
`getD 0 = 0` tests reproduce.  `darwinDescendants` is the optional final
argument of the source function. -/
def buildTerminationPlan (tbl : ProcessTable) (fuel : Nat) (platform : Platform)
    (mode : PlanMode) (signal : Signal) (pid : Option Nat) (processGroupId : Option Nat)
    (darwinDescendants : Option (List Nat)) : TerminationPlan :=
  if pid.getD 0 = 0 then
    ⟨mode, platform, signal, none, none, Strategy.noPid, none⟩
  else if platform = Platform.win32 then
    ⟨mode, platform, signal, pid, none, Strategy.windows, none⟩
  else if processGroupId.getD 0 ≠ 0 then
    ⟨mode, platform, signal, pid, processGroupId, Strategy.processGroup, none⟩
  else if platform = Platform.darwin then
    ⟨mode, platform, signal, pid, none, Strategy.darwinTree,
      some (darwinDescendants.getD (collectProcessTreeMacOS tbl (pid.getD 0) fuel))⟩
  else
    ⟨mode, platform, signal, pid, none, Strategy.childOnly, none⟩

/-- One OS-visible action of the termination executor. -/
inductive KillAction
  | taskkillTree (pid : Nat)
  | killPid (pid : Nat) (signal : Signal)
  | killGroup (processGroupId : Nat) (signal : Signal)
  | killChild (signal : Signal)
deriving DecidableEq

/-- The ambient facts `process.kill` and the orchestrator identity depend on:
the orchestrator's own pid and parent pid, and which kill calls would throw. -/
structure KillEnv where
  selfPid : Nat
  parentPid : Nat
  killThrows : Nat → Bool
  groupKillThrows : Nat → Bool

/-- killProcessList from terminate.ts.  Returns the kill attempts made (in
order) together with the pids that were skipped with a log line.  The
`try`/`catch` around `process.kill` swallows failures, so both branches of the
`killThrows` test continue identically. -/
def killProcessList (env : KillEnv) (pids : List Nat) (signal : Signal) :
    List KillAction × List Nat :=
  match pids with
  | [] => ([], [])
  | pid :: rest =>
    if pid = env.selfPid ∨ pid = env.parentPid then
      let (acts, skipped) := killProcessList env rest signal
      (acts, pid :: skipped)
    else if env.killThrows pid then
      let (acts, skipped) := killProcessList env rest signal
      (KillAction.killPid pid signal :: acts, skipped)
    else
      let (acts, skipped) := killProcessList env rest signal
      (KillAction.killPid pid signal :: acts, skipped)

/-- executeTerminationStrategy from terminate.ts, as the list of OS actions it
performs.  In the process-group case, `process.kill(-pgid, signal)` is
attempted and a direct `child.kill(signal)` follows only when it throws. -/
def executeTerminationStrategy (env : KillEnv) (plan : TerminationPlan) : List KillAction :=
  match plan.strategy with
  | Strategy.windows =>
    if plan.pid.getD 0 ≠ 0 then [KillAction.taskkillTree (plan.pid.getD 0)] else []
  | Strategy.darwinTree =>
    if plan.pid.getD 0 ≠ 0 ∧ plan.descendants.isSome then
      (killProcessList env (plan.descendants.getD []) plan.signal).1 ++
        [KillAction.killChild plan.signal]
    else []
  | Strategy.processGroup =>
    if plan.processGroupId.getD 0 ≠ 0 then
      if env.groupKillThrows (plan.processGroupId.getD 0) then
        [KillAction.killGroup (plan.processGroupId.getD 0) plan.signal,
         KillAction.killChild plan.signal]
      else
        [KillAction.killGroup (plan.processGroupId.getD 0) plan.signal]
    else [KillAction.killChild plan.signal]
  | Strategy.childOnly => [KillAction.killChild plan.signal]
  | Strategy.noPid => [KillAction.killChild plan.signal]

/-- The child-process handle fields terminate.ts reads (`kill`, the capability,
is represented by the `killChild` action). -/
structure ChildHandle where
  pid : Option Nat
  exitCode : Option Int
  killed : Bool
deriving DecidableEq

/-- The post-SIGTERM wait window of terminateProcessTree: `setTimeout(1000)`. -/
def sigtermWaitMs : Nat := 1000

/-- terminateProcessTree from terminate.ts, as the list of executed
(plan, actions) steps.  `exitWithin w` tells whether the exit promise settles
within a `w` millisecond race window (the `Promise.race([exit, setTimeout w])`
outcomes). -/
def terminateProcessTree (tbl : ProcessTable) (fuel : Nat) (platform : Platform)
    (env : KillEnv) (child : ChildHandle) (exitWithin : Nat → Bool)
    (processGroupId : Option Nat) : List (TerminationPlan × List KillAction) :=
  if child.exitCode ≠ none ∨ child.killed then []
  else
    let termPlan :=
      buildTerminationPlan tbl fuel platform PlanMode.real Signal.SIGTERM child.pid
        processGroupId none
    let firstStep := (termPlan, executeTerminationStrategy env termPlan)
    if exitWithin sigtermWaitMs then [firstStep]
    else
      let killPlan :=
        buildTerminationPlan tbl fuel platform PlanMode.real Signal.SIGKILL child.pid
          processGroupId none
      [firstStep, (killPlan, executeTerminationStrategy env killPlan)]

/-- recordMockTermination from terminate.ts: the mock plan it records. -/
def recordMockTermination (tbl : ProcessTable) (fuel : Nat) (platform : Platform)
    (child : ChildHandle) (processGroupId : Option Nat) : TerminationPlan :=
  buildTerminationPlan tbl fuel platform PlanMode.mock Signal.SIGTERM child.pid
    processGroupId none

/-- What a call to finalizeAgentProcess did: the TerminationPlans it recorded
(via onTerminateProcessTree), the OS kill actions it executed, and whether it
awaited the exit promise before returning control. -/
@[ext]
structure FinalizeResult where
  recordedPlans : List TerminationPlan
  actions : List KillAction
  awaitedExit : Bool
deriving DecidableEq

/-- finalizeAgentProcess from terminate.ts.  `exitWithin w` is the outcome of
racing the exit promise against a `w` ms timer; `nodeEnvIsTest` models
`process.env.NODE_ENV === "test"`. -/
def finalizeAgentProcess (tbl : ProcessTable) (fuel : Nat) (platform : Platform)
    (env : KillEnv) (child : ChildHandle) (exitWithin : Nat → Bool)
    (gracePeriodMs : Nat) (processGroupId : Option Nat)
    (mockTerminateProcessTree : Bool) (nodeEnvIsTest : Bool) : FinalizeResult :=
  if child.exitCode ≠ none ∨ child.killed then
    ⟨[], [], true⟩
  else
    let shouldMock := mockTerminateProcessTree && nodeEnvIsTest
    let exitedDuringGrace := exitWithin gracePeriodMs
    if !exitedDuringGrace then
      if shouldMock then
        ⟨[recordMockTermination tbl fuel platform child processGroupId], [], false⟩
      else
        let steps := terminateProcessTree tbl fuel platform env child exitWithin processGroupId
        ⟨steps.map Prod.fst, (steps.map Prod.snd).flatten, true⟩
    else if shouldMock then ⟨[], [], false⟩
    else ⟨[], [], true⟩

/-! ### Helper lemmas about the termination planner -/

lemma buildTerminationPlan_signal (tbl : ProcessTable) (fuel : Nat) (platform : Platform)
    (mode : PlanMode) (signal : Signal) (pid : Option Nat) (pgid : Option Nat)
    (dd : Option (List Nat)) :
    (buildTerminationPlan tbl fuel platform mode signal pid pgid dd).signal = signal := by
  unfold buildTerminationPlan
  split_ifs <;> rfl

lemma buildTerminationPlan_strategy_congr (tbl : ProcessTable) (fuel : Nat)
    (platform : Platform) (mode mode' : PlanMode) (signal signal' : Signal)
    (pid : Option Nat) (pgid : Option Nat) (dd dd' : Option (List Nat)) :
    (buildTerminationPlan tbl fuel platform mode signal pid pgid dd).strategy =
      (buildTerminationPlan tbl fuel platform mode' signal' pid pgid dd').strategy := by
  unfold buildTerminationPlan
  split_ifs <;> rfl

lemma killProcessList_eq (env : KillEnv) (pids : List Nat) (signal : Signal) :
    killProcessList env pids signal =
      ((pids.filter fun p => ¬(p = env.selfPid ∨ p = env.parentPid)).map
          fun p => KillAction.killPid p signal,
        pids.filter fun p => p = env.selfPid ∨ p = env.parentPid) := by
  induction pids with
  | nil => rfl
  | cons pid rest ih =>
    by_cases h : pid = env.selfPid ∨ pid = env.parentPid
    · have hcond : (!decide (pid = env.selfPid) && !decide (pid = env.parentPid)) = false := by
        rcases h with h | h <;> simp [h]
      simp [killProcessList, h, ih, List.filter_cons, hcond]
    · have h1 : pid ≠ env.selfPid := fun hh => h (Or.inl hh)
      have h2 : pid ≠ env.parentPid := fun hh => h (Or.inr hh)
      by_cases hk : env.killThrows pid <;>
        simp [killProcessList, h, hk, ih, List.filter_cons, h1, h2]

/-- Invariant of the macOS process-tree walk: when the root's process group is
known, every pid ever placed on the stack (other than the root) and every
collected descendant belongs to that group, because children are filtered by
group before being pushed. -/
lemma collectLoop_pgid (tbl : ProcessTable) (rootPid g : Nat) (fuel : Nat) :
    ∀ (toVisit visited descendants : List Nat),
      (∀ p ∈ toVisit, p = rootPid ∨ tbl.pgid p = some g) →
      (∀ p ∈ descendants, tbl.pgid p = some g) →
      ∀ p ∈ collectLoop tbl rootPid (some g) fuel toVisit visited descendants,
        tbl.pgid p = some g := by
  induction fuel with
  | zero =>
    intro toVisit visited descendants _ hd p hp
    simp only [collectLoop, List.mem_reverse] at hp
    exact hd p hp
  | succ n ih =>
    intro toVisit visited descendants hv hd p hp
    match toVisit with
    | [] =>
      simp only [collectLoop, List.mem_reverse] at hp
      exact hd p hp
    | pid :: rest =>
      rw [collectLoop] at hp
      by_cases hskip : pid = 0 ∨ pid ∈ visited
      · rw [if_pos hskip] at hp
        exact ih rest visited descendants
          (fun q hq => hv q (List.mem_cons_of_mem _ hq)) hd p hp
      · rw [if_neg hskip] at hp
        refine ih _ _ _ ?_ ?_ p hp
        · intro q hq
          rcases List.mem_append.1 hq with hql | hqr
          · have hqf := List.mem_reverse.1 hql
            have hqm := (List.mem_filter.1 hqf).1
            simp only [listChildPidsMacOS, List.mem_filter, decide_eq_true_eq] at hqm
            exact Or.inr hqm.2
          · exact hv q (List.mem_cons_of_mem _ hqr)
        · intro q hq
          by_cases hroot : pid ≠ rootPid
          · rw [if_pos hroot] at hq
            rcases List.mem_cons.1 hq with hq1 | hq2
            · rcases hv pid (List.mem_cons_self pid rest) with h1 | h2
              · exact absurd h1 hroot
              · rw [hq1]
                exact h2
            · exact hd q hq2
          · rw [if_neg hroot] at hq
            exact hd q hq

/-! ### Claim theorems: termination planner -/

/-- Claim C4: buildTerminationPlan selects exactly one strategy in priority
order — no pid, then win32, then a known process-group id, then darwin, else
child-only — with the no-pid strategy signalling the handle directly, the
process-group strategy executed as a kill of the negative group id with a
direct child kill only as a fallback when that kill throws, and the darwin
strategy carrying descendants enumerated from the process table filtered to
the root's process group. -/
theorem claim_C4_buildTerminationPlan_priority (tbl : ProcessTable) (fuel : Nat)
    (platform : Platform) (mode : PlanMode) (signal : Signal) (pid : Option Nat)
    (pgid : Option Nat) (env : KillEnv) :
    (pid.getD 0 = 0 →
      (buildTerminationPlan tbl fuel platform mode signal pid pgid none).strategy =
        Strategy.noPid ∧
      executeTerminationStrategy env
          (buildTerminationPlan tbl fuel platform mode signal pid pgid none) =
        [KillAction.killChild signal]) ∧
    (pid.getD 0 ≠ 0 → platform = Platform.win32 →
      (buildTerminationPlan tbl fuel platform mode signal pid pgid none).strategy =
        Strategy.windows ∧
      executeTerminationStrategy env
          (buildTerminationPlan tbl fuel platform mode signal pid pgid none) =
        [KillAction.taskkillTree (pid.getD 0)]) ∧
    (pid.getD 0 ≠ 0 → platform ≠ Platform.win32 → pgid.getD 0 ≠ 0 →
      (buildTerminationPlan tbl fuel platform mode signal pid pgid none).strategy =
        Strategy.processGroup ∧
      executeTerminationStrategy env
          (buildTerminationPlan tbl fuel platform mode signal pid pgid none) =
        (if env.groupKillThrows (pgid.getD 0) then
          [KillAction.killGroup (pgid.getD 0) signal, KillAction.killChild signal]
        else [KillAction.killGroup (pgid.getD 0) signal])) ∧
    (pid.getD 0 ≠ 0 → platform = Platform.darwin → pgid.getD 0 = 0 →
      (buildTerminationPlan tbl fuel platform mode signal pid pgid none).strategy =
        Strategy.darwinTree ∧
      (buildTerminationPlan tbl fuel platform mode signal pid pgid none).descendants =
        some (collectProcessTreeMacOS tbl (pid.getD 0) fuel) ∧
      (∀ g, tbl.pgid (pid.getD 0) = some g →
        ∀ d ∈ collectProcessTreeMacOS tbl (pid.getD 0) fuel, tbl.pgid d = some g)) ∧
    (pid.getD 0 ≠ 0 → platform ≠ Platform.win32 → platform ≠ Platform.darwin →
      pgid.getD 0 = 0 →
      (buildTerminationPlan tbl fuel platform mode signal pid pgid none).strategy =
        Strategy.childOnly ∧
      executeTerminationStrategy env
          (buildTerminationPlan tbl fuel platform mode signal pid pgid none) =
        [KillAction.killChild signal]) := by
  refine ⟨?_, ?_, ?_, ?_, ?_⟩
  · intro hpid
    simp [buildTerminationPlan, hpid, executeTerminationStrategy]
  · intro hpid hwin
    subst hwin
    simp [buildTerminationPlan, hpid, executeTerminationStrategy]
  · intro hpid hwin hpg
    simp [buildTerminationPlan, hpid, hwin, hpg, executeTerminationStrategy]
  · intro hpid hdar hpg
    subst hdar
    refine ⟨?_, ?_, ?_⟩
    · simp [buildTerminationPlan, hpid, hpg]
    · simp [buildTerminationPlan, hpid, hpg]
    · intro g hg d hd
      unfold collectProcessTreeMacOS at hd
      rw [hg] at hd
      refine collectLoop_pgid tbl (pid.getD 0) g fuel [pid.getD 0] [] [] ?_ ?_ d hd
      · intro q hq
        left
        simpa using hq
      · intro q hq
        simp at hq
  · intro hpid hwin hdar hpg
    simp [buildTerminationPlan, hpid, hwin, hdar, hpg, executeTerminationStrategy]

/-- Claim C4 witness: a concrete non-win32, non-darwin platform with a known
process group yields the process-group strategy executed as a negative-group
kill with no fallback when the kill succeeds. -/
theorem claim_C4_witness :
    (buildTerminationPlan ⟨fun _ => [], fun _ => none⟩ 5 Platform.linux PlanMode.real
        Signal.SIGTERM (some 12) (some 34) none).strategy = Strategy.processGroup ∧
    executeTerminationStrategy ⟨1, 0, fun _ => false, fun _ => false⟩
        (buildTerminationPlan ⟨fun _ => [], fun _ => none⟩ 5 Platform.linux PlanMode.real
          Signal.SIGTERM (some 12) (some 34) none) =
      [KillAction.killGroup 34 Signal.SIGTERM] := by
  have h :=
    (claim_C4_buildTerminationPlan_priority ⟨fun _ => [], fun _ => none⟩ 5 Platform.linux
        PlanMode.real Signal.SIGTERM (some 12) (some 34)
        ⟨1, 0, fun _ => false, fun _ => false⟩).2.2.1
      (by decide) (by decide) (by decide)
  exact ⟨h.1, h.2.trans (by decide)⟩

/-- Claim C2: a real termination of a still-running process executes a
SIGTERM-signed plan first and, exactly when the exit promise does not settle
within the 1000 ms post-SIGTERM window, a SIGKILL-signed plan built by the
same strategy selection; a handle that already exited or was killed gets no
signal at all. -/
theorem claim_C2_terminate_escalation (tbl : ProcessTable) (fuel : Nat)
    (platform : Platform) (env : KillEnv) (child : ChildHandle)
    (exitWithin : Nat → Bool) (pgid : Option Nat) :
    (child.exitCode = none → child.killed = false →
      terminateProcessTree tbl fuel platform env child exitWithin pgid =
        (if exitWithin sigtermWaitMs then
          [(buildTerminationPlan tbl fuel platform PlanMode.real Signal.SIGTERM child.pid
              pgid none,
            executeTerminationStrategy env
              (buildTerminationPlan tbl fuel platform PlanMode.real Signal.SIGTERM child.pid
                pgid none))]
        else
          [(buildTerminationPlan tbl fuel platform PlanMode.real Signal.SIGTERM child.pid
              pgid none,
            executeTerminationStrategy env
              (buildTerminationPlan tbl fuel platform PlanMode.real Signal.SIGTERM child.pid
                pgid none)),
           (buildTerminationPlan tbl fuel platform PlanMode.real Signal.SIGKILL child.pid
              pgid none,
            executeTerminationStrategy env
              (buildTerminationPlan tbl fuel platform PlanMode.real Signal.SIGKILL child.pid
                pgid none))])) ∧
    (buildTerminationPlan tbl fuel platform PlanMode.real Signal.SIGTERM child.pid
        pgid none).signal = Signal.SIGTERM ∧
    (buildTerminationPlan tbl fuel platform PlanMode.real Signal.SIGKILL child.pid
        pgid none).signal = Signal.SIGKILL ∧
    (buildTerminationPlan tbl fuel platform PlanMode.real Signal.SIGKILL child.pid
        pgid none).strategy =
      (buildTerminationPlan tbl fuel platform PlanMode.real Signal.SIGTERM child.pid
        pgid none).strategy ∧
    ((child.exitCode ≠ none ∨ child.killed = true) →
      terminateProcessTree tbl fuel platform env child exitWithin pgid = []) ∧
    sigtermWaitMs = 1000 := by
  refine ⟨?_, ?_, ?_, ?_, ?_, rfl⟩
  · intro hexit hkilled
    unfold terminateProcessTree
    rw [if_neg (by simp [hexit, hkilled])]
  · exact buildTerminationPlan_signal ..
  · exact buildTerminationPlan_signal ..
  · exact buildTerminationPlan_strategy_congr ..
  · intro h
    unfold terminateProcessTree
    rw [if_pos]
    rcases h with h | h
    · exact Or.inl h
    · exact Or.inr h

/-- Claim C2 witness: a still-running child on linux with a known process
group and an exit promise that never settles gets the SIGTERM plan followed by
the SIGKILL plan of the same (process-group) strategy. -/
theorem claim_C2_witness :
    terminateProcessTree ⟨fun _ => [], fun _ => none⟩ 0 Platform.linux
        ⟨1, 0, fun _ => false, fun _ => false⟩ ⟨some 12, none, false⟩
        (fun _ => false) (some 12) =
      [(⟨PlanMode.real, Platform.linux, Signal.SIGTERM, some 12, some 12,
          Strategy.processGroup, none⟩,
        [KillAction.killGroup 12 Signal.SIGTERM]),
       (⟨PlanMode.real, Platform.linux, Signal.SIGKILL, some 12, some 12,
          Strategy.processGroup, none⟩,
        [KillAction.killGroup 12 Signal.SIGKILL])] := by
  have h :=
    (claim_C2_terminate_escalation ⟨fun _ => [], fun _ => none⟩ 0 Platform.linux
        ⟨1, 0, fun _ => false, fun _ => false⟩ ⟨some 12, none, false⟩
        (fun _ => false) (some 12)).1 rfl rfl
  exact h.trans (by decide)

/-- Claim C3: finalization of a child that already exited (or was killed), or
that exits on its own within the grace period, records no TerminationPlan and
performs no kill action; and in every non-mock case finalization awaits the
exit promise before returning control. -/
theorem claim_C3_finalize_grace_and_await (tbl : ProcessTable) (fuel : Nat)
    (platform : Platform) (env : KillEnv) (child : ChildHandle)
    (exitWithin : Nat → Bool) (gracePeriodMs : Nat) (pgid : Option Nat)
    (mockFlag nodeEnvIsTest : Bool) :
    ((child.exitCode ≠ none ∨ child.killed = true) →
      finalizeAgentProcess tbl fuel platform env child exitWithin gracePeriodMs pgid
        mockFlag nodeEnvIsTest = ⟨[], [], true⟩) ∧
    (exitWithin gracePeriodMs = true →
      (finalizeAgentProcess tbl fuel platform env child exitWithin gracePeriodMs pgid
        mockFlag nodeEnvIsTest).recordedPlans = [] ∧
      (finalizeAgentProcess tbl fuel platform env child exitWithin gracePeriodMs pgid
        mockFlag nodeEnvIsTest).actions = []) ∧
    ((mockFlag && nodeEnvIsTest) = false →
      (finalizeAgentProcess tbl fuel platform env child exitWithin gracePeriodMs pgid
        mockFlag nodeEnvIsTest).awaitedExit = true) := by
  refine ⟨?_, ?_, ?_⟩
  · intro h
    unfold finalizeAgentProcess
    rw [if_pos]
    rcases h with h | h
    · exact Or.inl h
    · exact Or.inr h
  · intro hgrace
    unfold finalizeAgentProcess
    by_cases h : child.exitCode ≠ none ∨ child.killed = true
    · rw [if_pos h]
      exact ⟨rfl, rfl⟩
    · rw [if_neg h]
      simp only [hgrace]
      by_cases hm : (mockFlag && nodeEnvIsTest) = true <;> simp [hm]
  · intro hmock
    unfold finalizeAgentProcess
    by_cases h : child.exitCode ≠ none ∨ child.killed = true
    · rw [if_pos h]
    · rw [if_neg h]
      simp only [hmock]
      by_cases hg : exitWithin gracePeriodMs <;> simp [hg]

/-- Claim C3 witness: a child that exits on its own within the grace period
(`echo hi`-style run) yields no recorded plan, no kill action, and an awaited
exit. -/
theorem claim_C3_witness :
    finalizeAgentProcess ⟨fun _ => [], fun _ => none⟩ 0 Platform.linux
        ⟨1, 0, fun _ => false, fun _ => false⟩ ⟨some 7, none, false⟩
        (fun _ => true) 30000 (some 7) false false =
      ⟨[], [], true⟩ := by
  have h :=
    claim_C3_finalize_grace_and_await ⟨fun _ => [], fun _ => none⟩ 0 Platform.linux
      ⟨1, 0, fun _ => false, fun _ => false⟩ ⟨some 7, none, false⟩
      (fun _ => true) 30000 (some 7) false false
  have h2 := h.2.1 rfl
  have h3 := h.2.2 rfl
  exact FinalizeResult.ext h2.1 h2.2 h3

/-- Claim C9: killProcessList never signals the orchestrator's own pid or its
parent pid — exactly those entries are skipped (with a log line) — every other
pid is attempted in order, and a failed kill is swallowed: the attempts made
do not depend on which kills fail. -/
theorem claim_C9_killProcessList_self_protection (env : KillEnv) (pids : List Nat)
    (signal : Signal) :
    (∀ a ∈ (killProcessList env pids signal).1, ∀ p s, a = KillAction.killPid p s →
      p ≠ env.selfPid ∧ p ≠ env.parentPid) ∧
    (killProcessList env pids signal).1 =
      (pids.filter fun p => ¬(p = env.selfPid ∨ p = env.parentPid)).map
        (fun p => KillAction.killPid p signal) ∧
    (killProcessList env pids signal).2 =
      pids.filter (fun p => p = env.selfPid ∨ p = env.parentPid) ∧
    (∀ f g : Nat → Bool,
      killProcessList ⟨env.selfPid, env.parentPid, f, env.groupKillThrows⟩ pids signal =
        killProcessList ⟨env.selfPid, env.parentPid, g, env.groupKillThrows⟩ pids signal) := by
  refine ⟨?_, (killProcessList_eq env pids signal ▸ rfl),
    (killProcessList_eq env pids signal ▸ rfl), ?_⟩
  · intro a ha p s hps
    rw [killProcessList_eq] at ha
    simp only [List.mem_map, List.mem_filter, decide_eq_true_eq] at ha
    obtain ⟨q, ⟨_, hq⟩, rfl⟩ := ha
    obtain ⟨rfl, _⟩ := KillAction.killPid.injEq .. ▸ hps
    exact ⟨fun hh => hq (Or.inl hh), fun hh => hq (Or.inr hh)⟩
  · intro f g
    rw [killProcessList_eq, killProcessList_eq]

/-- Claim C9 witness: with orchestrator pid 5 and parent pid 6, the list
[4, 5, 6, 7] yields kills of 4 and 7 only and skips exactly 5 and 6, even
though the kill of 4 throws. -/
theorem claim_C9_witness :
    (killProcessList ⟨5, 6, fun p => p = 4, fun _ => false⟩ [4, 5, 6, 7]
        Signal.SIGTERM).1 =
      [KillAction.killPid 4 Signal.SIGTERM, KillAction.killPid 7 Signal.SIGTERM] ∧
    (killProcessList ⟨5, 6, fun p => p = 4, fun _ => false⟩ [4, 5, 6, 7]
        Signal.SIGTERM).2 = [5, 6] := by
  have h :=
    claim_C9_killProcessList_self_protection ⟨5, 6, fun p => p = 4, fun _ => false⟩
      [4, 5, 6, 7] Signal.SIGTERM
  exact ⟨h.2.1.trans (by decide), h.2.2.1.trans (by decide)⟩

/-! ### Process spawning and the exit promise (src/src/utils/run.ts) -/

/-- createLineBuffer from run.ts: the retained partial-line buffer. -/
structure LineBuffer where
  buffer : String
deriving DecidableEq

/-- The `write` closure of createLineBuffer: appends the chunk, splits on
newlines, keeps the trailing partial line and emits every complete line with
its newline restored. -/
def lineBufferWrite (lb : LineBuffer) (text : String) : LineBuffer × List String :=
  if text.isEmpty then (lb, [])
  else
    let parts := (lb.buffer ++ text).splitOn "\n"
    (⟨parts.getLastD ""⟩, parts.dropLast.map (fun line => line ++ "\n"))

/-- The `flush` closure of createLineBuffer: emits the retained partial line
(newline-terminated) if non-empty. -/
def lineBufferFlush (lb : LineBuffer) : LineBuffer × List String :=
  if lb.buffer.isEmpty then (lb, [])
  else (⟨""⟩, [lb.buffer ++ "\n"])

/-- The accumulated `output` record of spawnProcessWithLogging. -/
structure SpawnOutput where
  stdout : String
  stderr : String
  combined : String
deriving DecidableEq

/-- Settlement state of the `exit` promise.  The promise type admits
rejection; the executor in spawnProcessWithLogging only ever resolves. -/
inductive ExitSettle
  | pending
  | resolved (code : Option Int)
  | rejected
deriving DecidableEq

/-- The mutable state captured by spawnProcessWithLogging's closures. -/
structure SpawnState where
  output : SpawnOutput
  stdoutBuf : LineBuffer
  stderrBuf : LineBuffer
  settle : ExitSettle
deriving DecidableEq

/-- Observable effects of the spawn closures: logger.writeChunk calls (for
buffered lines and for the spawn-error message) and promise settlement. -/
inductive EmitAction
  | logLine (line : String) (isError : Bool)
  | logText (text : String) (isError : Bool)
  | resolveExit (code : Option Int)
  | rejectExit
deriving DecidableEq

/-- Events delivered to the handlers spawnProcessWithLogging installs on the
child process and its streams. -/
inductive ChildEvent
  | dataOut (chunk : String)
  | dataErr (chunk : String)
  | close (code : Option Int)
  | errorEvent (message : String)
deriving DecidableEq

def ChildEvent.isData : ChildEvent → Bool
  | ChildEvent.dataOut _ => true
  | ChildEvent.dataErr _ => true
  | _ => false

def EmitAction.isResolve : EmitAction → Bool
  | EmitAction.resolveExit _ => true
  | _ => false

def EmitAction.isReject : EmitAction → Bool
  | EmitAction.rejectExit => true
  | _ => false

def EmitAction.isLog : EmitAction → Bool
  | EmitAction.logLine _ _ => true
  | EmitAction.logText _ _ => true
  | _ => false

/-- `resolveOnce` from the exit-promise executor: the `resolved` guard makes
the first call win and every later call a no-op. -/
def resolveOnce (st : SpawnState) (code : Option Int) : SpawnState × List EmitAction :=
  match st.settle with
  | ExitSettle.pending =>
    ({st with settle := ExitSettle.resolved code}, [EmitAction.resolveExit code])
  | _ => (st, [])

/-- The per-event handlers of spawnProcessWithLogging: `data` accumulates into
output and the line buffers; `close` flushes both buffers then resolves with
the reported code; `error` flushes both buffers, appends the
"Failed to start process" line to stderr/combined, logs it, and resolves with
the synthetic code 1. -/
def handleChildEvent (st : SpawnState) (e : ChildEvent) : SpawnState × List EmitAction :=
  match e with
  | ChildEvent.dataOut chunk =>
    ({st with
        output := ⟨st.output.stdout ++ chunk, st.output.stderr, st.output.combined ++ chunk⟩,
        stdoutBuf := (lineBufferWrite st.stdoutBuf chunk).1},
      (lineBufferWrite st.stdoutBuf chunk).2.map (fun l => EmitAction.logLine l false))
  | ChildEvent.dataErr chunk =>
    ({st with
        output := ⟨st.output.stdout, st.output.stderr ++ chunk, st.output.combined ++ chunk⟩,
        stderrBuf := (lineBufferWrite st.stderrBuf chunk).1},
      (lineBufferWrite st.stderrBuf chunk).2.map (fun l => EmitAction.logLine l true))
  | ChildEvent.close code =>
    ((resolveOnce
        {st with
          stdoutBuf := (lineBufferFlush st.stdoutBuf).1,
          stderrBuf := (lineBufferFlush st.stderrBuf).1} code).1,
      (lineBufferFlush st.stdoutBuf).2.map (fun l => EmitAction.logLine l false) ++
        (lineBufferFlush st.stderrBuf).2.map (fun l => EmitAction.logLine l true) ++
        (resolveOnce
          {st with
            stdoutBuf := (lineBufferFlush st.stdoutBuf).1,
            stderrBuf := (lineBufferFlush st.stderrBuf).1} code).2)
  | ChildEvent.errorEvent msg =>
    ((resolveOnce
        {st with
          stdoutBuf := (lineBufferFlush st.stdoutBuf).1,
          stderrBuf := (lineBufferFlush st.stderrBuf).1,
          output := ⟨st.output.stdout,
            st.output.stderr ++ ("Failed to start process: " ++ msg ++ "\n"),
            st.output.combined ++ ("Failed to start process: " ++ msg ++ "\n")⟩}
        (some 1)).1,
      (lineBufferFlush st.stdoutBuf).2.map (fun l => EmitAction.logLine l false) ++
        (lineBufferFlush st.stderrBuf).2.map (fun l => EmitAction.logLine l true) ++
        [EmitAction.logText ("Failed to start process: " ++ msg ++ "\n") true] ++
        (resolveOnce
          {st with
            stdoutBuf := (lineBufferFlush st.stdoutBuf).1,
            stderrBuf := (lineBufferFlush st.stderrBuf).1,
            output := ⟨st.output.stdout,
              st.output.stderr ++ ("Failed to start process: " ++ msg ++ "\n"),
              st.output.combined ++ ("Failed to start process: " ++ msg ++ "\n")⟩}
          (some 1)).2)

/-- The state spawnProcessWithLogging starts from: empty output, empty line
buffers, pending exit promise. -/
def initSpawnState : SpawnState := ⟨⟨"", "", ""⟩, ⟨""⟩, ⟨""⟩, ExitSettle.pending⟩

/-- Deliver a sequence of child events, accumulating the emitted actions. -/
def processChildEvents : SpawnState → List ChildEvent → SpawnState × List EmitAction
  | st, [] => (st, [])
  | st, e :: rest =>
    ((processChildEvents (handleChildEvent st e).1 rest).1,
      (handleChildEvent st e).2 ++ (processChildEvents (handleChildEvent st e).1 rest).2)

/-- After the first resolve, no log action may appear behind it in a single
handler's action list (buffers are flushed before resolving). -/
def noLogAfterResolve : List EmitAction → Bool
  | [] => true
  | EmitAction.resolveExit _ :: rest => rest.all (fun a => !a.isLog)
  | _ :: rest => noLogAfterResolve rest

/-! ### Helper lemmas about the exit promise -/

lemma handleChildEvent_settle_resolved (st : SpawnState) (e : ChildEvent) (c : Option Int)
    (h : st.settle = ExitSettle.resolved c) :
    (handleChildEvent st e).1.settle = ExitSettle.resolved c := by
  cases e <;> simp [handleChildEvent, resolveOnce, h]

lemma processChildEvents_settle_resolved (events : List ChildEvent) :
    ∀ (st : SpawnState) (c : Option Int), st.settle = ExitSettle.resolved c →
      (processChildEvents st events).1.settle = ExitSettle.resolved c := by
  induction events with
  | nil => intro st c h; simpa [processChildEvents] using h
  | cons e rest ih =>
    intro st c h
    simp only [processChildEvents]
    exact ih _ c (handleChildEvent_settle_resolved st e c h)

lemma handleChildEvent_settle_cases (st : SpawnState) (e : ChildEvent) :
    (handleChildEvent st e).1.settle = st.settle ∨
      ∃ c, (handleChildEvent st e).1.settle = ExitSettle.resolved c := by
  cases e <;> cases hs : st.settle <;> simp [handleChildEvent, resolveOnce, hs]

lemma processChildEvents_not_rejected (events : List ChildEvent) :
    ∀ st : SpawnState, st.settle ≠ ExitSettle.rejected →
      (processChildEvents st events).1.settle ≠ ExitSettle.rejected := by
  induction events with
  | nil => intro st h; simpa [processChildEvents] using h
  | cons e rest ih =>
    intro st h
    simp only [processChildEvents]
    refine ih _ ?_
    rcases handleChildEvent_settle_cases st e with hc | ⟨c, hc⟩
    · rw [hc]; exact h
    · rw [hc]; simp

lemma handleChildEvent_reject_filter (st : SpawnState) (e : ChildEvent) :
    ((handleChildEvent st e).2.filter fun a => a.isReject) = [] := by
  cases e <;> cases hs : st.settle <;>
    simp [handleChildEvent, resolveOnce, hs, EmitAction.isReject, List.filter_append,
      List.filter_map, Function.comp]

lemma processChildEvents_reject_filter (events : List ChildEvent) :
    ∀ st : SpawnState, ((processChildEvents st events).2.filter fun a => a.isReject) = [] := by
  induction events with
  | nil => intro st; simp [processChildEvents]
  | cons e rest ih =>
    intro st
    simp only [processChildEvents, List.filter_append, handleChildEvent_reject_filter,
      List.nil_append]
    exact ih _

lemma handleChildEvent_resolve_filter_resolved (st : SpawnState) (e : ChildEvent)
    (c : Option Int) (h : st.settle = ExitSettle.resolved c) :
    ((handleChildEvent st e).2.filter fun a => a.isResolve) = [] := by
  cases e <;>
    simp [handleChildEvent, resolveOnce, h, EmitAction.isResolve, List.filter_append,
      List.filter_map, Function.comp]

lemma processChildEvents_resolve_filter_resolved (events : List ChildEvent) :
    ∀ (st : SpawnState) (c : Option Int), st.settle = ExitSettle.resolved c →
      ((processChildEvents st events).2.filter fun a => a.isResolve) = [] := by
  induction events with
  | nil => intro st c _; simp [processChildEvents]
  | cons e rest ih =>
    intro st c h
    simp only [processChildEvents, List.filter_append]
    rw [handleChildEvent_resolve_filter_resolved st e c h,
      ih _ c (handleChildEvent_settle_resolved st e c h)]
    rfl

lemma handleChildEvent_data_settle (st : SpawnState) (e : ChildEvent)
    (h : e.isData = true) : (handleChildEvent st e).1.settle = st.settle := by
  cases e <;> simp [ChildEvent.isData] at h <;> simp [handleChildEvent]

lemma handleChildEvent_data_resolve_filter (st : SpawnState) (e : ChildEvent)
    (h : e.isData = true) :
    ((handleChildEvent st e).2.filter fun a => a.isResolve) = [] := by
  cases e <;> simp [ChildEvent.isData] at h <;>
    simp [handleChildEvent, EmitAction.isResolve, List.filter_map, Function.comp]

@[simp] lemma isResolve_logLine (l : String) (b : Bool) :
    (EmitAction.logLine l b).isResolve = false := rfl

@[simp] lemma isResolve_logText (t : String) (b : Bool) :
    (EmitAction.logText t b).isResolve = false := rfl

@[simp] lemma isResolve_resolveExit (c : Option Int) :
    (EmitAction.resolveExit c).isResolve = true := rfl

@[simp] lemma filter_isResolve_map_logLine (xs : List String) (b : Bool) :
    ((xs.map fun l => EmitAction.logLine l b).filter fun a => a.isResolve) = [] := by
  induction xs with
  | nil => rfl
  | cons x rest ih => simp [List.filter_cons, ih]

lemma handleChildEvent_close_pending (st : SpawnState) (code : Option Int)
    (h : st.settle = ExitSettle.pending) :
    (handleChildEvent st (ChildEvent.close code)).1.settle = ExitSettle.resolved code ∧
    ((handleChildEvent st (ChildEvent.close code)).2.filter fun a => a.isResolve) =
      [EmitAction.resolveExit code] := by
  constructor
  · simp [handleChildEvent, resolveOnce, h]
  · simp [handleChildEvent, resolveOnce, h, List.filter_append]

lemma handleChildEvent_error_pending (st : SpawnState) (msg : String)
    (h : st.settle = ExitSettle.pending) :
    (handleChildEvent st (ChildEvent.errorEvent msg)).1.settle =
      ExitSettle.resolved (some 1) ∧
    ((handleChildEvent st (ChildEvent.errorEvent msg)).2.filter fun a => a.isResolve) =
      [EmitAction.resolveExit (some 1)] := by
  constructor
  · simp [handleChildEvent, resolveOnce, h]
  · simp [handleChildEvent, resolveOnce, h, List.filter_append]

lemma processChildEvents_resolve_count_pending (events : List ChildEvent) :
    ∀ st : SpawnState, st.settle = ExitSettle.pending →
      ((processChildEvents st events).2.filter fun a => a.isResolve).length ≤ 1 := by
  induction events with
  | nil => intro st _; simp [processChildEvents]
  | cons e rest ih =>
    intro st h
    simp only [processChildEvents, List.filter_append, List.length_append]
    cases he : e.isData with
    | true =>
      rw [handleChildEvent_data_resolve_filter st e he]
      simpa using ih _ ((handleChildEvent_data_settle st e he).trans h)
    | false =>
      cases e with
      | dataOut chunk => simp [ChildEvent.isData] at he
      | dataErr chunk => simp [ChildEvent.isData] at he
      | close code =>
        obtain ⟨h1, h2⟩ := handleChildEvent_close_pending st code h
        rw [h2, processChildEvents_resolve_filter_resolved rest _ code h1]
        simp
      | errorEvent msg =>
        obtain ⟨h1, h2⟩ := handleChildEvent_error_pending st msg h
        rw [h2, processChildEvents_resolve_filter_resolved rest _ (some 1) h1]
        simp

lemma processChildEvents_data_pending (pre : List ChildEvent) :
    ∀ st : SpawnState, (∀ e ∈ pre, e.isData = true) → st.settle = ExitSettle.pending →
      (processChildEvents st pre).1.settle = ExitSettle.pending := by
  induction pre with
  | nil => intro st _ h; simpa [processChildEvents] using h
  | cons e rest ih =>
    intro st hall h
    simp only [processChildEvents]
    refine ih _ (fun x hx => hall x (List.mem_cons_of_mem _ hx)) ?_
    rw [handleChildEvent_data_settle st e (hall e (List.mem_cons_self e rest))]
    exact h

lemma processChildEvents_append_fst (l1 l2 : List ChildEvent) :
    ∀ st : SpawnState, (processChildEvents st (l1 ++ l2)).1 =
      (processChildEvents (processChildEvents st l1).1 l2).1 := by
  induction l1 with
  | nil => intro st; simp [processChildEvents]
  | cons e rest ih =>
    intro st
    simp only [List.cons_append, processChildEvents]
    exact ih _

@[simp] lemma isLog_logLine (l : String) (b : Bool) :
    (EmitAction.logLine l b).isLog = true := rfl

@[simp] lemma isLog_logText (t : String) (b : Bool) :
    (EmitAction.logText t b).isLog = true := rfl

@[simp] lemma isLog_resolveExit (c : Option Int) :
    (EmitAction.resolveExit c).isLog = false := rfl

lemma noLogAfterResolve_append_logLines (xs : List String) (b : Bool)
    (rest : List EmitAction) :
    noLogAfterResolve ((xs.map fun l => EmitAction.logLine l b) ++ rest) =
      noLogAfterResolve rest := by
  induction xs with
  | nil => rfl
  | cons x xs2 ih => simpa [noLogAfterResolve] using ih

lemma noLogAfterResolve_logLines (xs : List String) (b : Bool) :
    noLogAfterResolve (xs.map fun l => EmitAction.logLine l b) = true := by
  have h := noLogAfterResolve_append_logLines xs b []
  rw [List.append_nil] at h
  rw [h]
  rfl

lemma handleChildEvent_noLogAfterResolve (st : SpawnState) (e : ChildEvent) :
    noLogAfterResolve (handleChildEvent st e).2 = true := by
  cases e <;> cases hs : st.settle <;>
    simp [handleChildEvent, resolveOnce, hs, List.append_assoc,
      noLogAfterResolve_append_logLines, noLogAfterResolve_logLines, noLogAfterResolve]

lemma handleChildEvent_output_append (st : SpawnState) (e : ChildEvent) :
    ∃ t u, (handleChildEvent st e).1.output.stderr = st.output.stderr ++ t ∧
      (handleChildEvent st e).1.output.combined = st.output.combined ++ u := by
  cases e with
  | dataOut chunk =>
    exact ⟨"", chunk, by simp [handleChildEvent], by simp [handleChildEvent]⟩
  | dataErr chunk =>
    exact ⟨chunk, chunk, by simp [handleChildEvent], by simp [handleChildEvent]⟩
  | close code =>
    refine ⟨"", "", ?_, ?_⟩ <;> cases hs : st.settle <;>
      simp [handleChildEvent, resolveOnce, hs]
  | errorEvent msg =>
    refine ⟨"Failed to start process: " ++ msg ++ "\n",
      "Failed to start process: " ++ msg ++ "\n", ?_, ?_⟩ <;>
      cases hs : st.settle <;> simp [handleChildEvent, resolveOnce, hs]

lemma processChildEvents_output_append (events : List ChildEvent) :
    ∀ st : SpawnState, ∃ t u,
      (processChildEvents st events).1.output.stderr = st.output.stderr ++ t ∧
      (processChildEvents st events).1.output.combined = st.output.combined ++ u := by
  induction events with
  | nil =>
    intro st
    exact ⟨"", "", by simp [processChildEvents], by simp [processChildEvents]⟩
  | cons e rest ih =>
    intro st
    obtain ⟨t1, u1, h1, h2⟩ := handleChildEvent_output_append st e
    obtain ⟨t2, u2, h3, h4⟩ := ih (handleChildEvent st e).1
    refine ⟨t1 ++ t2, u1 ++ u2, ?_, ?_⟩
    · simp only [processChildEvents]
      rw [h3, h1, String.append_assoc]
    · simp only [processChildEvents]
      rw [h4, h2, String.append_assoc]

/-! ### Claim theorems: the exit promise -/

/-- Claim C10: the exit promise of a spawned process settles at most once and
only by resolution — no handler ever rejects it — the first close-or-error
event (in either order) determines the resolved code, line buffers are
flushed before the resolving action within each handler, and the settled
value is always a code that is a number or null. -/
theorem claim_C10_exit_promise_settles_once :
    (∀ events : List ChildEvent,
      ((processChildEvents initSpawnState events).2.filter fun a => a.isReject) = []) ∧
    (∀ events : List ChildEvent,
      ((processChildEvents initSpawnState events).2.filter fun a =>
        a.isResolve).length ≤ 1) ∧
    (∀ (pre rest : List ChildEvent) (code : Option Int),
      (∀ e ∈ pre, e.isData = true) →
      (processChildEvents initSpawnState (pre ++ ChildEvent.close code :: rest)).1.settle =
        ExitSettle.resolved code) ∧
    (∀ (pre rest : List ChildEvent) (msg : String),
      (∀ e ∈ pre, e.isData = true) →
      (processChildEvents initSpawnState
          (pre ++ ChildEvent.errorEvent msg :: rest)).1.settle =
        ExitSettle.resolved (some 1)) ∧
    (∀ (st : SpawnState) (e : ChildEvent),
      noLogAfterResolve (handleChildEvent st e).2 = true) ∧
    (∀ events : List ChildEvent,
      (processChildEvents initSpawnState events).1.settle = ExitSettle.pending ∨
        ∃ c, (processChildEvents initSpawnState events).1.settle =
          ExitSettle.resolved c) := by
  refine ⟨?_, ?_, ?_, ?_, handleChildEvent_noLogAfterResolve, ?_⟩
  · intro events
    exact processChildEvents_reject_filter events initSpawnState
  · intro events
    exact processChildEvents_resolve_count_pending events initSpawnState rfl
  · intro pre rest code hpre
    rw [processChildEvents_append_fst]
    have hpending := processChildEvents_data_pending pre initSpawnState hpre rfl
    simp only [processChildEvents]
    exact processChildEvents_settle_resolved rest _ code
      (handleChildEvent_close_pending _ code hpending).1
  · intro pre rest msg hpre
    rw [processChildEvents_append_fst]
    have hpending := processChildEvents_data_pending pre initSpawnState hpre rfl
    simp only [processChildEvents]
    exact processChildEvents_settle_resolved rest _ (some 1)
      (handleChildEvent_error_pending _ msg hpending).1
  · intro events
    have h := processChildEvents_not_rejected events initSpawnState (by simp [initSpawnState])
    rcases hset : (processChildEvents initSpawnState events).1.settle with _ | c | _
    · exact Or.inl rfl
    · exact Or.inr ⟨c, rfl⟩
    · exact absurd hset h

/-- Claim C10 witness: after a data chunk, a close with code 0 and a late
error event, the promise is resolved with code 0 and the trace holds at most
one resolution. -/
theorem claim_C10_witness :
    (processChildEvents initSpawnState
        [ChildEvent.dataOut "a", ChildEvent.close (some 0),
          ChildEvent.errorEvent "boom"]).1.settle = ExitSettle.resolved (some 0) ∧
    ((processChildEvents initSpawnState
        [ChildEvent.dataOut "a", ChildEvent.close (some 0),
          ChildEvent.errorEvent "boom"]).2.filter fun a => a.isResolve).length ≤ 1 := by
  constructor
  · have h := claim_C10_exit_promise_settles_once.2.2.1 [ChildEvent.dataOut "a"]
      [ChildEvent.errorEvent "boom"] (some 0) (by decide)
    simpa using h
  · exact claim_C10_exit_promise_settles_once.2.1
      [ChildEvent.dataOut "a", ChildEvent.close (some 0), ChildEvent.errorEvent "boom"]

/-- Claim C7: a spawn failure (the child's `error` event) resolves the exit
promise with the synthetic non-zero code 1 rather than null, and appends the
spawn error to stderr and combined output as a "Failed to start process: ..."
line; the failure is delivered through the handler/promise interface (the
spawn call itself returns the handle), not thrown. -/
theorem claim_C7_spawn_failure_synthetic_exit (msg : String) (rest : List ChildEvent) :
    (handleChildEvent initSpawnState (ChildEvent.errorEvent msg)).1.output.stderr =
      "Failed to start process: " ++ msg ++ "\n" ∧
    (handleChildEvent initSpawnState (ChildEvent.errorEvent msg)).1.output.combined =
      "Failed to start process: " ++ msg ++ "\n" ∧
    EmitAction.logText ("Failed to start process: " ++ msg ++ "\n") true ∈
      (handleChildEvent initSpawnState (ChildEvent.errorEvent msg)).2 ∧
    (processChildEvents initSpawnState (ChildEvent.errorEvent msg :: rest)).1.settle =
      ExitSettle.resolved (some 1) ∧
    (∃ t u,
      (processChildEvents initSpawnState
          (ChildEvent.errorEvent msg :: rest)).1.output.stderr =
        ("Failed to start process: " ++ msg ++ "\n") ++ t ∧
      (processChildEvents initSpawnState
          (ChildEvent.errorEvent msg :: rest)).1.output.combined =
        ("Failed to start process: " ++ msg ++ "\n") ++ u) ∧
    ExitSettle.resolved (some 1) ≠ ExitSettle.resolved none := by
  have hstderr :
      (handleChildEvent initSpawnState (ChildEvent.errorEvent msg)).1.output.stderr =
        "Failed to start process: " ++ msg ++ "\n" := by
    simp [handleChildEvent, resolveOnce, initSpawnState]
  have hcombined :
      (handleChildEvent initSpawnState (ChildEvent.errorEvent msg)).1.output.combined =
        "Failed to start process: " ++ msg ++ "\n" := by
    simp [handleChildEvent, resolveOnce, initSpawnState]
  refine ⟨hstderr, hcombined, ?_, ?_, ?_, by simp⟩
  · simp [handleChildEvent, resolveOnce, initSpawnState]
  · simp only [processChildEvents]
    exact processChildEvents_settle_resolved rest _ (some 1)
      (handleChildEvent_error_pending initSpawnState msg rfl).1
  · obtain ⟨t, u, h1, h2⟩ :=
      processChildEvents_output_append rest
        (handleChildEvent initSpawnState (ChildEvent.errorEvent msg)).1
    refine ⟨t, u, ?_, ?_⟩
    · simp only [processChildEvents]
      rw [h1, hstderr]
    · simp only [processChildEvents]
      rw [h2, hcombined]

/-- Claim C7 witness: the error event with message "spawn ENOENT" yields a
resolved code 1 and the exact stderr line. -/
theorem claim_C7_witness :
    (processChildEvents initSpawnState
        [ChildEvent.errorEvent "spawn foo ENOENT"]).1.settle =
      ExitSettle.resolved (some 1) ∧
    (handleChildEvent initSpawnState
        (ChildEvent.errorEvent "spawn foo ENOENT")).1.output.stderr =
      "Failed to start process: spawn foo ENOENT\n" := by
  have h := claim_C7_spawn_failure_synthetic_exit "spawn foo ENOENT" []
  exact ⟨h.2.2.2.1, h.1.trans (by decide)⟩

/-! ### runAgentUntilResult (src/src/utils/run.ts) -/

/-- AgentResult from src/src/agent/resultServer.ts. -/
structure AgentResult (T : Type) where
  result : T
  receivedAt : String
deriving DecidableEq

/-- The outcome of `Promise.race([waitForResult, exit.then(throw)])`: whichever
of the two promises settles first. -/
inductive RaceOutcome (T : Type)
  | resultFirst (r : AgentResult T)
  | exitFirst (code : Option Int)

/-- Ordered milestones of one runAgentUntilResult call. -/
inductive RunEvent
  | raceSettled
  | finalized
  | threw (message : String)
  | returned
deriving DecidableEq

/-- The `code ?? "unknown"` label interpolated into the premature-exit error. -/
def exitLabel : Option Int → String
  | some c => toString c
  | none => "unknown"

/-- The error thrown when the exit promise wins the race. -/
def prematureExitMessage (code : Option Int) : String :=
  "Agent exited before posting a result (exit " ++ exitLabel code ++ ")."

/-- The RunOptions fields runAgentUntilResult reads (src/src/types.ts). -/
structure RunOptions where
  agentGracePeriodMs : Option Nat
  mockTerminateProcessTree : Bool

/-- What one runAgentUntilResult call produced: the finalization it performed,
the ordered milestones, and the value returned or error thrown. -/
structure AgentRunReturn (T : Type) where
  finalize : FinalizeResult
  events : List RunEvent
  outcome : Except String (AgentResult T)

/-- runAgentUntilResult from run.ts: race the result promise against the exit
promise (whose settlement throws the premature-exit error), capture the
failure, always run finalizeAgentProcess with grace
`options.agentGracePeriodMs ?? 30_000`, and only then rethrow the failure or
return the result. -/
def runAgentUntilResult (T : Type) (tbl : ProcessTable) (fuel : Nat)
    (platform : Platform) (env : KillEnv) (child : ChildHandle)
    (exitWithin : Nat → Bool) (processGroupId : Option Nat) (opts : RunOptions)
    (nodeEnvIsTest : Bool) (race : RaceOutcome T) : AgentRunReturn T :=
  let fin := finalizeAgentProcess tbl fuel platform env child exitWithin
    (opts.agentGracePeriodMs.getD 30000) processGroupId
    opts.mockTerminateProcessTree nodeEnvIsTest
  match race with
  | RaceOutcome.resultFirst r =>
    ⟨fin, [RunEvent.raceSettled, RunEvent.finalized, RunEvent.returned], Except.ok r⟩
  | RaceOutcome.exitFirst code =>
    ⟨fin, [RunEvent.raceSettled, RunEvent.finalized,
        RunEvent.threw (prematureExitMessage code)],
      Except.error (prematureExitMessage code)⟩

/-- Claim C6: when the process exits before the result promise settles,
runAgentUntilResult throws the premature-exit error carrying the exit code —
with the `finalized` milestone strictly before the `threw` milestone — and
never returns a result value in that case. -/
theorem claim_C6_premature_exit (T : Type) (tbl : ProcessTable) (fuel : Nat)
    (platform : Platform) (env : KillEnv) (child : ChildHandle)
    (exitWithin : Nat → Bool) (processGroupId : Option Nat) (opts : RunOptions)
    (nodeEnvIsTest : Bool) (code : Option Int) :
    (runAgentUntilResult T tbl fuel platform env child exitWithin processGroupId opts
        nodeEnvIsTest (RaceOutcome.exitFirst code)).outcome =
      Except.error ("Agent exited before posting a result (exit " ++
        exitLabel code ++ ").") ∧
    (runAgentUntilResult T tbl fuel platform env child exitWithin processGroupId opts
        nodeEnvIsTest (RaceOutcome.exitFirst code)).events =
      [RunEvent.raceSettled, RunEvent.finalized,
        RunEvent.threw (prematureExitMessage code)] ∧
    (runAgentUntilResult T tbl fuel platform env child exitWithin processGroupId opts
        nodeEnvIsTest (RaceOutcome.exitFirst code)).finalize =
      finalizeAgentProcess tbl fuel platform env child exitWithin
        (opts.agentGracePeriodMs.getD 30000) processGroupId
        opts.mockTerminateProcessTree nodeEnvIsTest ∧
    (∀ r : AgentResult T,
      (runAgentUntilResult T tbl fuel platform env child exitWithin processGroupId opts
        nodeEnvIsTest (RaceOutcome.exitFirst code)).outcome ≠ Except.ok r) := by
  refine ⟨rfl, rfl, rfl, ?_⟩
  intro r h
  exact Except.noConfusion ((rfl :
    (runAgentUntilResult T tbl fuel platform env child exitWithin processGroupId opts
      nodeEnvIsTest (RaceOutcome.exitFirst code)).outcome =
    Except.error (prematureExitMessage code)) ▸ h)

/-- Claim C6 witness: exit code 3 yields the exact error message and event
order on a concrete run. -/
theorem claim_C6_witness :
    (runAgentUntilResult Unit ⟨fun _ => [], fun _ => none⟩ 0 Platform.linux
        ⟨1, 0, fun _ => false, fun _ => false⟩ ⟨some 7, some 3, false⟩
        (fun _ => true) (some 7) ⟨none, false⟩ false
        (RaceOutcome.exitFirst (some 3))).outcome =
      Except.error "Agent exited before posting a result (exit 3)." ∧
    (runAgentUntilResult Unit ⟨fun _ => [], fun _ => none⟩ 0 Platform.linux
        ⟨1, 0, fun _ => false, fun _ => false⟩ ⟨some 7, some 3, false⟩
        (fun _ => true) (some 7) ⟨none, false⟩ false
        (RaceOutcome.exitFirst (some 3))).events =
      [RunEvent.raceSettled, RunEvent.finalized,
        RunEvent.threw "Agent exited before posting a result (exit 3)."] := by
  have h := claim_C6_premature_exit Unit ⟨fun _ => [], fun _ => none⟩ 0 Platform.linux
    ⟨1, 0, fun _ => false, fun _ => false⟩ ⟨some 7, some 3, false⟩
    (fun _ => true) (some 7) ⟨none, false⟩ false (some 3)
  constructor
  · rw [h.1]
    exact congrArg Except.error (by decide)
  · rw [h.2.1]
    decide

/-! ### Result server (src/src/agent/resultServer.ts) -/

/-- The request fields the handler of startResultServer reads. -/
structure HttpRequest where
  method : String
  path : String
  contentType : String
  body : String
deriving DecidableEq

/-- The responses the handler writes. -/
inductive HttpResponse
  | ok (body : String)
  | badRequest (message : String)
  | notFound
  | methodNotAllowed
deriving DecidableEq

/-- The body-parsing environment of parseResultBody: `jsonParse` composes
jsonrepair with JSON.parse (`none` = a parse exception); `ofText` injects a
plain-text body into the payload type (the source keeps the string itself). -/
structure ResultParser (T : Type) where
  jsonParse : String → Option T
  ofText : String → T

/-- JavaScript `String.prototype.trim`: strip whitespace from both ends
(structural implementation so that concrete inputs evaluate). -/
def jsTrim (s : String) : String :=
  ⟨((s.data.dropWhile Char.isWhitespace).reverse.dropWhile Char.isWhitespace).reverse⟩

/-- Whether `pat` occurs as a contiguous run at the start of `l`. -/
def charsStartWith : List Char → List Char → Bool
  | [], _ => true
  | _ :: _, [] => false
  | a :: asx, b :: bs => a = b && charsStartWith asx bs

/-- Whether `pat` occurs as a contiguous run anywhere in `l`
(JavaScript `String.prototype.includes`). -/
def charsContain (pat : List Char) : List Char → Bool
  | [] => charsStartWith pat []
  | b :: bs => charsStartWith pat (b :: bs) || charsContain pat bs

/-- `contentType.includes("application/json")`. -/
def contentTypeIsJson (contentType : String) : Bool :=
  charsContain "application/json".data contentType.data

/-- parseResultBody from resultServer.ts: repair-then-parse for JSON content
types, else the trimmed body as plain text. -/
def parseResultBody (p : ResultParser T) (contentType body : String) : Except String T :=
  if contentTypeIsJson contentType then
    match p.jsonParse body with
    | some v => Except.ok v
    | none => Except.error "Invalid JSON payload. Provide a valid JSON object."
  else Except.ok (p.ofText (jsTrim body))

/-- `validated.error.issues[0]?.message ?? "Invalid result payload."`. -/
def firstIssueMessage (issues : List String) : String :=
  issues.head?.getD "Invalid result payload."

/-- The one-shot state of the result server: whether the listener still
accepts requests, and the settled value of the result promise. -/
structure ServerState (T : Type) where
  listenerOpen : Bool
  settled : Option (AgentResult T)
deriving DecidableEq

/-- The state right after `server.listen` succeeds. -/
def initServerState (T : Type) : ServerState T := ⟨true, none⟩

/-- Resolving the result promise (the first resolution wins) and closing the
listener, as done after the 200 "ok" response. -/
def settleAndClose (st : ServerState T) (r : T) (now : String) : ServerState T :=
  ⟨false, some (st.settled.getD ⟨r, now⟩)⟩

/-- The request handler of startResultServer.  `schema` is the caller-supplied
zod schema as its safeParse function (`none` when no schema was given); a
validation error carries the issue messages.  `now` abstracts
`new Date().toISOString()` at acceptance time. -/
def handleResultRequest (p : ResultParser T)
    (schema : Option (T → Except (List String) T)) (now : String)
    (st : ServerState T) (req : HttpRequest) : HttpResponse × ServerState T :=
  if req.method ≠ "POST" then (HttpResponse.methodNotAllowed, st)
  else if req.path ≠ "/agent-result" then (HttpResponse.notFound, st)
  else
    match parseResultBody p req.contentType (jsTrim req.body) with
    | Except.error e => (HttpResponse.badRequest e, st)
    | Except.ok v =>
      match schema with
      | some check =>
        match check v with
        | Except.error issues => (HttpResponse.badRequest (firstIssueMessage issues), st)
        | Except.ok r => (HttpResponse.ok "ok", settleAndClose st r now)
      | none => (HttpResponse.ok "ok", settleAndClose st v now)

/-- Serve a sequence of (request, arrival-time) pairs; once the listener is
closed a request is no longer served (response `none`). -/
def processRequests (p : ResultParser T)
    (schema : Option (T → Except (List String) T)) :
    ServerState T → List (HttpRequest × String) →
      List (Option HttpResponse) × ServerState T
  | st, [] => ([], st)
  | st, (req, now) :: rest =>
    if st.listenerOpen then
      (some (handleResultRequest p schema now st req).1 ::
          (processRequests p schema (handleResultRequest p schema now st req).2 rest).1,
        (processRequests p schema (handleResultRequest p schema now st req).2 rest).2)
    else
      (none :: (processRequests p schema st rest).1, (processRequests p schema st rest).2)

lemma processRequests_closed (p : ResultParser T)
    (schema : Option (T → Except (List String) T))
    (reqs : List (HttpRequest × String)) :
    ∀ st : ServerState T, st.listenerOpen = false →
      processRequests p schema st reqs = (reqs.map (fun _ => none), st) := by
  induction reqs with
  | nil => intro st _; rfl
  | cons rq rest ih =>
    intro st h
    obtain ⟨req, now⟩ := rq
    simp only [processRequests, h, Bool.false_eq_true, if_false, List.map_cons]
    rw [ih st h]

/-- Claim C1: a POST to /agent-result whose body parses but fails schema
validation is answered 400 with the first validation issue message and leaves
the server state (promise and listener) unchanged, so the agent may retry;
the first POST that parses and validates is answered 200 "ok", settles the
promise exactly once with the result and the acceptance timestamp, and closes
the listener; a closed listener serves no further request and the settled
value never changes. -/
theorem claim_C1_result_server_validation (T : Type) (p : ResultParser T)
    (check : T → Except (List String) T) (now : String) (st : ServerState T)
    (req : HttpRequest) (v r : T) (issue : String) (issues : List String) :
    (req.method = "POST" → req.path = "/agent-result" →
      parseResultBody p req.contentType (jsTrim req.body) = Except.ok v →
      check v = Except.error (issue :: issues) →
      handleResultRequest p (some check) now st req =
        (HttpResponse.badRequest issue, st)) ∧
    (req.method = "POST" → req.path = "/agent-result" →
      parseResultBody p req.contentType (jsTrim req.body) = Except.ok v →
      check v = Except.ok r → st.settled = none →
      handleResultRequest p (some check) now st req =
        (HttpResponse.ok "ok", ⟨false, some ⟨r, now⟩⟩)) ∧
    (∀ (rest : List (HttpRequest × String)) (closed : ServerState T),
      closed.listenerOpen = false →
      processRequests p (some check) closed rest =
        (rest.map (fun _ => none), closed)) := by
  refine ⟨?_, ?_, fun rest closed h => processRequests_closed p (some check) rest closed h⟩
  · intro hm hp hparse hcheck
    simp [handleResultRequest, hm, hp, hparse, hcheck, firstIssueMessage]
  · intro hm hp hparse hcheck hsettled
    simp [handleResultRequest, hm, hp, hparse, hcheck, settleAndClose, hsettled]

/-- Concrete parser for the C1 scenario: jsonrepair+JSON.parse recognizing the
two bodies used in the scenario. -/
def c1Parser : ResultParser String :=
  ⟨fun s =>
    if s = "\x7b\"status\":\"ok\"\x7d" then some "status-ok"
    else if s = "\x7b\"status\":\"bad\"\x7d" then some "status-bad"
    else none,
  fun s => s⟩

/-- Concrete schema for the C1 scenario: accepts only the parsed value of
the body with status ok. -/
def c1Check : String → Except (List String) String := fun v =>
  if v = "status-ok" then Except.ok v
  else Except.error ["Invalid literal value, expected ok"]

/-- Claim C1 witness: the schema-failing POST gets 400 with the first issue
and changes nothing; the valid POST gets 200 "ok", settles the promise with
the result and timestamp, and closes the listener; a request arriving at the
closed listener is not served and the settled value stays. -/
theorem claim_C1_witness :
    handleResultRequest c1Parser (some c1Check) "2026-01-01T00:00:00.000Z"
        (initServerState String)
        ⟨"POST", "/agent-result", "application/json", "\x7b\"status\":\"bad\"\x7d"⟩ =
      (HttpResponse.badRequest "Invalid literal value, expected ok",
        initServerState String) ∧
    handleResultRequest c1Parser (some c1Check) "2026-01-01T00:00:00.000Z"
        (initServerState String)
        ⟨"POST", "/agent-result", "application/json", "\x7b\"status\":\"ok\"\x7d"⟩ =
      (HttpResponse.ok "ok",
        ⟨false, some ⟨"status-ok", "2026-01-01T00:00:00.000Z"⟩⟩) ∧
    processRequests c1Parser (some c1Check)
        ⟨false, some ⟨"status-ok", "2026-01-01T00:00:00.000Z"⟩⟩
        [(⟨"POST", "/agent-result", "application/json",
            "\x7b\"status\":\"ok\"\x7d"⟩, "2026-01-01T00:00:01.000Z")] =
      ([none], ⟨false, some ⟨"status-ok", "2026-01-01T00:00:00.000Z"⟩⟩) := by
  have h := claim_C1_result_server_validation String c1Parser c1Check
    "2026-01-01T00:00:00.000Z" (initServerState String)
    ⟨"POST", "/agent-result", "application/json", "\x7b\"status\":\"bad\"\x7d"⟩
    "status-bad" "status-bad" "Invalid literal value, expected ok" []
  have h2 := claim_C1_result_server_validation String c1Parser c1Check
    "2026-01-01T00:00:00.000Z" (initServerState String)
    ⟨"POST", "/agent-result", "application/json", "\x7b\"status\":\"ok\"\x7d"⟩
    "status-ok" "status-ok" "unused" []
  refine ⟨h.1 rfl rfl (by rfl) (by rfl), h2.2.1 rfl rfl (by rfl) (by rfl) rfl, ?_⟩
  exact h2.2.2 _ _ rfl

/-! ### Logger and logging contexts (src/src/utils/runtime.ts)

The source fields `prefix` / `mainPrefix` are embedded as `pfx` / `mainPfx`
because `prefix` is a Lean keyword. -/

/-- LogContext from runtime.ts. -/
structure LogContext where
  extraLogPaths : Option (List String)
  mainPfx : Option String
  pfx : Option String
  logPath : Option String
deriving DecidableEq

/-- JavaScript truthiness of an optional string: undefined and "" are falsy. -/
def strTruthy : Option String → Bool
  | none => false
  | some s => s ≠ ""

/-- mergePrefixes from runtime.ts: space-separated concatenation when both are
truthy, else `parent ?? child`. -/
def mergePfx (parent child : Option String) : Option String :=
  if strTruthy parent && strTruthy child then
    some (parent.getD "" ++ " " ++ child.getD "")
  else
    match parent with
    | some p => some p
    | none => child

/-- JavaScript `text.split("\n")` on the character list. -/
def splitOnNewline : List Char → List (List Char)
  | [] => [[]]
  | a :: rest =>
    match splitOnNewline rest with
    | [] => [[a]]
    | h :: t => if a = '\n' then [] :: h :: t else (a :: h) :: t

def jsSplitNewline (s : String) : List String :=
  (splitOnNewline s.data).map (fun cs => ⟨cs⟩)

/-- JavaScript `lines.join("\n")`. -/
def joinWithNewline : List String → String
  | [] => ""
  | [x] => x
  | x :: y :: rest => x ++ "\n" ++ joinWithNewline (y :: rest)

/-- applyPrefixToText from runtime.ts: no-op for a falsy prefix; otherwise
normalize the prefix to end with one space and prepend it to every non-empty
line. -/
def applyPfxToText (text : String) (pfx : Option String) : String :=
  match pfx with
  | none => text
  | some p =>
    if p = "" then text
    else
      let normalized := if p.data.getLast? = some ' ' then p else p ++ " "
      joinWithNewline ((jsSplitNewline text).map
        (fun line => if line = "" then line else normalized ++ line))

/-- mergeLogPath from runtime.ts: `child ?? parent`. -/
def mergeLogPath (parent child : Option String) : Option String :=
  match child with
  | some c => some c
  | none => parent

/-- mergeLogPaths from runtime.ts. -/
def mergeLogPaths (parent child : Option (List String)) : Option (List String) :=
  if (parent.getD [] ++ child.getD []).length > 0 then some (parent.getD [] ++ child.getD [])
  else none

/-- mergeLogContext from runtime.ts. -/
def mergeLogContext (parent child : LogContext) : LogContext :=
  ⟨mergeLogPaths parent.extraLogPaths child.extraLogPaths,
    mergePfx parent.mainPfx child.mainPfx,
    mergePfx parent.pfx child.pfx,
    mergeLogPath parent.logPath child.logPath⟩

/-- The Logger instance fields appendToFile reads. -/
structure LoggerState where
  logPath : Option String
  extraLogPaths : List String

/-- JS `Set` union preserving first-insertion order. -/
def insertUnique (acc : List String) (p : String) : List String :=
  if p ∈ acc then acc else acc ++ [p]

def dedupUnion (xs : List String) : List String := xs.foldl insertUnique []

/-- One `appendFileSync` call. -/
structure FileWrite where
  path : String
  line : String
deriving DecidableEq

/-- Logger.appendToFile from runtime.ts: the main destination
(`context.logPath ?? this.logPath`) receives `mainLine`; every extra
destination receives `baseLine` when `context.mainPrefix` is truthy and the
raw line otherwise. -/
def appendToFile (lg : LoggerState) (mainLine baseLine rawLine : String)
    (ctx : LogContext) : List FileWrite :=
  (match mergeLogPath lg.logPath ctx.logPath with
    | some p => [⟨p, mainLine⟩]
    | none => []) ++
  (dedupUnion (lg.extraLogPaths ++ ctx.extraLogPaths.getD [])).map
    (fun path => ⟨path, if strTruthy ctx.mainPfx then baseLine else rawLine⟩)

/-- The observable effect of one Logger.writeChunk call. -/
structure ChunkEmission where
  consoleText : Option (String × Bool)
  fileWrites : List FileWrite
deriving DecidableEq

/-- Logger.writeChunk from runtime.ts: computes the locally-prefixed and
fully-prefixed variants of the chunk, streams the fully-prefixed variant to
the console when requested, and appends via appendToFile. -/
def writeChunk (lg : LoggerState) (ctx : LogContext) (chunk : String)
    (streamToConsole isError : Bool) : ChunkEmission :=
  if chunk = "" then ⟨none, []⟩
  else
    ⟨if streamToConsole then
        some (applyPfxToText chunk (mergePfx ctx.mainPfx ctx.pfx), isError)
      else none,
      appendToFile lg (applyPfxToText chunk (mergePfx ctx.mainPfx ctx.pfx))
        (applyPfxToText chunk ctx.pfx) chunk ctx⟩

/-- Claim C8 counterexample: with a local prefix "[3]", an extra destination
and NO mainPrefix in effect, the line written to the extra destination is the
raw unprefixed chunk, not the locally-prefixed variant the claim requires. -/
theorem claim_C8_counterexample :
    (writeChunk ⟨none, []⟩ ⟨some ["extra.log"], none, some "[3]", none⟩
        "hello\n" false false).fileWrites ≠
      [⟨"extra.log", applyPfxToText "hello\n" (some "[3]")⟩] := by decide

/-- Claim C8 (amended): prefixes compose by space-separated concatenation of
parent then child; the console/main stream carries `mainPrefix + prefix`; and
the extra destinations carry the locally-prefixed variant exactly when a
truthy mainPrefix is in effect — with no mainPrefix they receive the raw
unprefixed line. -/
theorem claim_C8_amended_prefix_composition :
    (∀ p c : String, p ≠ "" → c ≠ "" →
      mergePfx (some p) (some c) = some (p ++ " " ++ c)) ∧
    (∀ parent child : LogContext,
      (mergeLogContext parent child).pfx = mergePfx parent.pfx child.pfx ∧
      (mergeLogContext parent child).mainPfx = mergePfx parent.mainPfx child.mainPfx) ∧
    (∀ (lg : LoggerState) (ctx : LogContext) (chunk : String) (isError : Bool),
      chunk ≠ "" →
      (writeChunk lg ctx chunk true isError).consoleText =
        some (applyPfxToText chunk (mergePfx ctx.mainPfx ctx.pfx), isError)) ∧
    (∀ (lg : LoggerState) (ctx : LogContext) (mainLine baseLine rawLine : String),
      strTruthy ctx.mainPfx = true →
      appendToFile lg mainLine baseLine rawLine ctx =
        (match mergeLogPath lg.logPath ctx.logPath with
          | some p => [⟨p, mainLine⟩]
          | none => []) ++
        (dedupUnion (lg.extraLogPaths ++ ctx.extraLogPaths.getD [])).map
          (fun path => ⟨path, baseLine⟩)) ∧
    (∀ (lg : LoggerState) (ctx : LogContext) (mainLine baseLine rawLine : String),
      strTruthy ctx.mainPfx = false →
      appendToFile lg mainLine baseLine rawLine ctx =
        (match mergeLogPath lg.logPath ctx.logPath with
          | some p => [⟨p, mainLine⟩]
          | none => []) ++
        (dedupUnion (lg.extraLogPaths ++ ctx.extraLogPaths.getD [])).map
          (fun path => ⟨path, rawLine⟩)) := by
  refine ⟨?_, ?_, ?_, ?_, ?_⟩
  · intro p c hp hc
    simp [mergePfx, strTruthy, hp, hc]
  · intro parent child
    exact ⟨rfl, rfl⟩
  · intro lg ctx chunk isError h
    simp [writeChunk, h]
  · intro lg ctx mainLine baseLine rawLine h
    simp [appendToFile, h]
  · intro lg ctx mainLine baseLine rawLine h
    simp [appendToFile, h]

/-- Claim C8 witness: the spec's scenario — parent mainPrefix "[run-1]" with a
run-scoped extra destination, child prefix "[3]" — yields
"[run-1] [3] hi" on the console/main stream and "[3] hi" alone in the extra
destination file. -/
theorem claim_C8_witness :
    (writeChunk ⟨some "main.log", []⟩
        (mergeLogContext ⟨some ["wf.log"], some "[run-1]", none, none⟩
          ⟨none, none, some "[3]", none⟩) "hi\n" true false).consoleText =
      some ("[run-1] [3] hi\n", false) ∧
    (writeChunk ⟨some "main.log", []⟩
        (mergeLogContext ⟨some ["wf.log"], some "[run-1]", none, none⟩
          ⟨none, none, some "[3]", none⟩) "hi\n" true false).fileWrites =
      [⟨"main.log", "[run-1] [3] hi\n"⟩, ⟨"wf.log", "[3] hi\n"⟩] := by
  have h := claim_C8_amended_prefix_composition
  constructor
  · exact (h.2.2.1 ⟨some "main.log", []⟩ _ "hi\n" false (by decide)).trans (by decide)
  · decide

/-! ### Inactivity watchdog (spec §4.3) -/

/-- Modelled from the spec: the Inactivity Watchdog of spec §4.3 is missing
from the sources under src/ (runAgentUntilResult races only the result
promise against process exit, and RunOptions has no timeout field).  This
models the specified resettable timer: armed at time 0 with `timeoutMs`,
reset by every output event (`outputs` lists the output-event times in
ascending order, `last` is the latest reset), firing `timeoutMs` after the
last reset that precedes a silence longer than the timeout. -/
def watchdogFireTime (timeoutMs : Nat) (last : Nat) : List Nat → Nat
  | [] => last + timeoutMs
  | t :: rest =>
    if t ≤ last + timeoutMs then watchdogFireTime timeoutMs t rest
    else last + timeoutMs

/-- How a run's outer race can settle. -/
inductive RunTermination
  | resultDelivered
  | processExited
  | inactivityTimeout
deriving DecidableEq

/-- The race winner together with the grace period passed to termination. -/
structure WatchdogDecision where
  outcome : RunTermination
  terminationGraceMs : Nat
deriving DecidableEq

/-- Modelled from the spec: the three-way race of the result promise, process
exit and the watchdog.  `resultAt`/`exitAt` are settle times (`none` =
never); a timeout of zero/unset disables the watchdog; the watchdog wins only
by firing before the result resolves or the process exits; when it wins, the
run fails with the inactivity error and termination is requested with grace
period 0, otherwise the default grace period applies. -/
def raceWithWatchdog (timeoutMs : Nat) (outputs : List Nat)
    (resultAt exitAt : Option Nat) (defaultGraceMs : Nat) : Option WatchdogDecision :=
  let fire : Option Nat :=
    if timeoutMs = 0 then none else some (watchdogFireTime timeoutMs 0 outputs)
  let watchdogWins : Bool :=
    match fire with
    | none => false
    | some f =>
      (match resultAt with | none => true | some t => f < t) &&
        (match exitAt with | none => true | some t => f < t)
  if watchdogWins then some ⟨RunTermination.inactivityTimeout, 0⟩
  else
    match resultAt, exitAt with
    | none, none => none
    | some _, none => some ⟨RunTermination.resultDelivered, defaultGraceMs⟩
    | none, some _ => some ⟨RunTermination.processExited, defaultGraceMs⟩
    | some r, some e =>
      if r ≤ e then some ⟨RunTermination.resultDelivered, defaultGraceMs⟩
      else some ⟨RunTermination.processExited, defaultGraceMs⟩

/-- Claim C5 (against the spec-modelled watchdog): with a non-zero timeout, a
process silent past the watchdog deadline before the result or exit settles
fails the run with the inactivity outcome and grace period 0; every output
event arriving within the window resets the timer; and a zero timeout
disables the watchdog entirely. -/
theorem claim_C5_inactivity_watchdog (timeoutMs defaultGraceMs : Nat)
    (outputs : List Nat) (resultAt exitAt : Option Nat) :
    (timeoutMs ≠ 0 →
      (∀ t, resultAt = some t → watchdogFireTime timeoutMs 0 outputs < t) →
      (∀ t, exitAt = some t → watchdogFireTime timeoutMs 0 outputs < t) →
      raceWithWatchdog timeoutMs outputs resultAt exitAt defaultGraceMs =
        some ⟨RunTermination.inactivityTimeout, 0⟩) ∧
    (∀ (last t : Nat) (rest : List Nat), t ≤ last + timeoutMs →
      watchdogFireTime timeoutMs last (t :: rest) = watchdogFireTime timeoutMs t rest) ∧
    (∀ d, raceWithWatchdog 0 outputs resultAt exitAt defaultGraceMs = some d →
      d.outcome ≠ RunTermination.inactivityTimeout) := by
  refine ⟨?_, ?_, ?_⟩
  · intro h0 hr he
    cases resultAt with
    | none =>
      cases exitAt with
      | none => simp [raceWithWatchdog, h0]
      | some te => simp [raceWithWatchdog, h0, he te rfl]
    | some tr =>
      cases exitAt with
      | none => simp [raceWithWatchdog, h0, hr tr rfl]
      | some te => simp [raceWithWatchdog, h0, hr tr rfl, he te rfl]
  · intro last t rest h
    simp [watchdogFireTime, h]
  · intro d hd hout
    simp only [raceWithWatchdog, if_pos rfl] at hd
    cases resultAt with
    | none =>
      cases exitAt with
      | none => simp at hd
      | some te =>
        simp at hd
        rw [← hd] at hout
        simp at hout
    | some tr =>
      cases exitAt with
      | none =>
        simp at hd
        rw [← hd] at hout
        simp at hout
      | some te =>
        by_cases hre : tr ≤ te <;> simp [hre] at hd <;> rw [← hd] at hout <;>
          simp at hout

/-- Claim C5 witness: timeout 5000 with outputs at 1000 and 3000 fires at
8000, before the exit at 20000, so the run fails with the inactivity outcome
and grace 0. -/
theorem claim_C5_witness :
    raceWithWatchdog 5000 [1000, 3000] none (some 20000) 30000 =
      some ⟨RunTermination.inactivityTimeout, 0⟩ := by
  have h := (claim_C5_inactivity_watchdog 5000 30000 [1000, 3000] none (some 20000)).1
  refine h (by decide) (fun t ht => by cases ht) (fun t ht => ?_)
  cases ht
  decide

end OAgents
